import Mathlib

set_option autoImplicit false
set_option maxRecDepth 8000

/-!
Verification of the day-assembly logic of the NevadoDelRuiz conversion
scripts.  Shallow embedding of the two scripts

  * `src/02_mseed2sds.py`
  * `src/suds_conversion/20_twominutemseed2suds.py`

Python strings are modelled as lists of characters, absolute UTC times
(POSIX seconds) and sampling rates as rationals, and sample arrays as
lists of optional integers (`none` is a masked / no-data sample, as in a
numpy masked array).  Calls into obspy (`Trace.trim`, `Stream.merge`,
`Stream.select`, `Stream.remove`) are embedded following the library's
documented semantics, since the scripts' behaviour is decided by them.
-/

/-- Python strings (station, channel, network, location codes), modelled
as lists of characters. -/
abbrev Str := List Char

/-- Whether `r` is an initial run of `s`: Python `s.startswith(r)`.  This
is also what the fnmatch pattern `r*` matches in `Stream.select`
(obspy's `select` upper-cases both sides; all codes in this data set are
already upper case, so the model compares case-sensitively). -/
def lead : Str → Str → Bool
  | [], _ => true
  | _ :: _, [] => false
  | a :: as, b :: bs => a == b && lead as bs

/-- The reserved timing-sentinel station code. -/
def IRIG : Str := ['I', 'R', 'I', 'G']

/-- The high-gain instrument channel root `"EH"`. -/
def strEH : Str := ['E', 'H']

/-- The low-gain instrument channel root `"EL"`. -/
def strEL : Str := ['E', 'L']

/-- The default vertical channel `"EHZ"`. -/
def EHZ : Str := ['E', 'H', 'Z']

/-- Last character of a station code (`station[-1]`); `'?'` (never an
orientation letter) stands in for the empty case. -/
def lastCh (s : Str) : Char := s.getLastD '?'

/-- Python `station[-1:] in "ZNE"` as written in
`20_twominutemseed2suds.py`: the slice of an empty string is `""`, and
`"" in "ZNE"` is `True` in Python, so an empty station passes. -/
def endsZNE_slice (s : Str) : Bool :=
  s.isEmpty || lastCh s == 'Z' || lastCh s == 'N' || lastCh s == 'E'

/-- Python `station[-1] in 'ZNE'` as written in `02_mseed2sds.py`.
Python would raise IndexError on an empty station; the model returns
`false` there (theorems about this function assume non-empty stations). -/
def endsZNE_index (s : Str) : Bool :=
  !s.isEmpty && (lastCh s == 'Z' || lastCh s == 'N' || lastCh s == 'E')

/-- Python `len(channel) != 3 or channel[2] not in "ZNE"`: the channel is
not a well-formed 3-character code ending in an orientation letter. -/
def malformedCha (c : Str) : Bool :=
  c.length != 3 || !(c.getD 2 '?' == 'Z' || c.getD 2 '?' == 'N' || c.getD 2 '?' == 'E')

/-- Python `str.strip()` (whitespace removed from both ends). -/
def pystrip (s : Str) : Str :=
  ((s.dropWhile Char.isWhitespace).reverse.dropWhile Char.isWhitespace).reverse

/-- Python `str.upper()` on the ASCII station codes of this data set
(`Char.toUpper` agrees with Python on ASCII). -/
def upperStr (s : Str) : Str := s.map Char.toUpper

/-- The station test done by obspy `Stream.select(station=r+'*')`: the
select upper-cases both the trace's station and the pattern before the
fnmatch, so the prefix comparison is case-insensitive. -/
def leadCI (r s : Str) : Bool := lead (upperStr r) (upperStr s)

/-- The header fields of one obspy trace that the identity-normalizing
functions read and write (`tr.stats.network`, `.station`, `.location`,
`.channel`); the sample data and times play no role in `fix_seedid`. -/
structure STr where
  net : Str
  sta : Str
  loc : Str
  cha : Str
deriving DecidableEq, Repr

/-- One trace of `fix_seedid` from `20_twominutemseed2suds.py` (lines
26-72).  `stations` is the snapshot `[tr.stats.station for tr in st]`
taken before the loop (it still contains the IRIG codes).  Returns
`none` when the trace is dropped. -/
def fix_seedid_one_20 (stations : List Str) (network : Str) (tr : STr) : Option STr :=
  if tr.sta = IRIG then none else
  let tr1 : STr := { tr with net := network }
  let root3 : Str := tr1.sta.take 3
  let multi : Bool := decide (1 < stations.countP (lead root3))
  let tr2 : STr :=
    if endsZNE_slice tr1.sta && multi then
      { tr1 with cha := strEH ++ [lastCh tr1.sta], sta := root3 }
    else
      if malformedCha tr1.cha then { tr1 with cha := EHZ } else tr1
  let tr3 : STr :=
    if tr2.sta.length = 4 then
      if lastCh tr2.sta == 'L' && multi then
        { tr2 with cha := strEL ++ [tr2.cha.getD 2 '?'], sta := tr2.sta.take 3 }
      else if lastCh tr2.sta == 'H' && multi then
        { tr2 with sta := tr2.sta.take 3 }
      else tr2
    else tr2
  some { tr3 with loc := pystrip tr3.loc }

/-- `fix_seedid` from `20_twominutemseed2suds.py`: builds a fresh stream
from copies, with the sibling-station snapshot taken up front. -/
def fix_seedid_20 (network : Str) (st : List STr) : List STr :=
  st.filterMap (fix_seedid_one_20 (st.map STr.sta) network)

/-- The per-trace body of `fix_seedid` from `02_mseed2sds.py` (lines
34-51) for a non-IRIG trace, given the truth value `multi` of
`len(st.select(station=root3+'*')) > 1`.  Within one trace's processing
the live select counts cannot change (only this trace's own fields
change, and its 3-character station root is preserved), so a single
`multi` value is faithful.  Note the unconditional `channel = 'EHZ'` in
the else-branch, and that the two 4-character tests are sequential
`if`s, not `elif`. -/
def fix_seedid_one_02 (multi : Bool) (network : Str) (tr : STr) : STr :=
  let tr1 : STr := { tr with net := network }
  let tr2 : STr :=
    if endsZNE_index tr1.sta && multi then
      { tr1 with cha := strEH ++ [lastCh tr1.sta], sta := tr1.sta.take 3 }
    else
      { tr1 with cha := EHZ }
  if tr2.sta.length = 4 then
    let tr3 : STr :=
      if lastCh tr2.sta == 'L' && multi then
        { tr2 with cha := strEL ++ [tr2.cha.getD 2 '?'], sta := tr2.sta.take 3 }
      else tr2
    if lastCh tr3.sta == 'H' && multi then
      { tr3 with sta := tr3.sta.take 3 }
    else tr3
  else tr2

/-- The `for tr in st:` loop of `fix_seedid` in `02_mseed2sds.py`.
obspy's `Stream.__iter__` returns an iterator over a *copy* of the
trace list (a robust iterator, documented precisely so that removing
traces inside a for-loop is safe), so every original trace is visited
exactly once and `st.remove(tr)` never skips anything.  The recursion
walks that snapshot: `rest` is the unvisited part, and the live stream
seen by `select` and `remove` is `prev ++ tr :: rest` — the mutated
already-visited non-IRIG traces, the current trace, and the untouched
remainder (already-removed IRIG traces are absent).  `remove(tr)` takes
the first trace equal to `tr`, which is the current one: `prev` holds
only processed traces, whose stations are never the 4-character IRIG
(they are either an original non-IRIG code or a 3-character
truncation).  `select(station=root3+'*')` counts case-insensitively
(`leadCI`), as obspy upper-cases both sides of the fnmatch. -/
def fix_seedid_02_loop (network : Str) : List STr → List STr → List STr
  | prev, [] => prev
  | prev, tr :: rest =>
    if tr.sta = IRIG then
      fix_seedid_02_loop network prev rest
    else
      let live : List Str := (prev ++ tr :: rest).map STr.sta
      let multi : Bool := decide (1 < live.countP (leadCI (tr.sta.take 3)))
      fix_seedid_02_loop network (prev ++ [fix_seedid_one_02 multi network tr]) rest

/-- `fix_seedid` from `02_mseed2sds.py`: in-place normalization of the
stream. -/
def fix_seedid_02 (network : Str) (st : List STr) : List STr :=
  fix_seedid_02_loop network [] st

/-! ## Time-domain layer: fragments, trimming, day splitting, merging -/

/-- One waveform fragment: identity header plus `starttime` (POSIX
seconds, UTC), `sampling_rate` (Hz) and the sample array.  A `none`
sample is a masked (no-data) sample, as in a numpy masked array. -/
structure Tr where
  net : Str
  sta : Str
  loc : Str
  cha : Str
  start : ℚ
  rate : ℚ
  data : List (Option ℤ)
deriving DecidableEq, Repr

/-- obspy `Trace.stats.endtime`: the time of the last sample,
`starttime + (npts - 1) / sampling_rate`. -/
def endt (t : Tr) : ℚ := t.start + ((t.data.length : ℚ) - 1) / t.rate

/-- obspy's `round_away`: round to the nearest integer, halves away from
zero (used by `Trace.trim` with the default `nearest_sample=True`). -/
def roundAway (q : ℚ) : ℤ := if 0 ≤ q then ⌊q + 1/2⌋ else ⌈q - 1/2⌉

/-- Python's built-in `round`: nearest integer, halves to even (used by
`round(sr)` in both scripts). -/
def pyRound (q : ℚ) : ℤ :=
  if q - ⌊q⌋ < 1/2 then ⌊q⌋
  else if 1/2 < q - ⌊q⌋ then ⌊q⌋ + 1
  else if 2 ∣ ⌊q⌋ then ⌊q⌋ else ⌊q⌋ + 1

/-- `UTCDateTime(t.year, t.month, t.day)` for a UTC instant `t`: midnight
of the calendar day containing `t` (POSIX time has no leap seconds, so
this is flooring to a multiple of 86400). -/
def dayStart (t : ℚ) : ℚ := 86400 * (⌊t / 86400⌋ : ℤ)

/-- obspy `Trace._ltrim(starttime=s, pad=False, nearest_sample=True)`:
cut off everything before the sample nearest `s`.  With
`delta = round_away((s - start) * rate) <= 0` the trace is returned
unchanged; with `s` past the end the data are emptied; otherwise the
first `delta` samples are dropped and `starttime` advances by
`delta / rate`. -/
def ltrim (f : Tr) (s : ℚ) : Tr :=
  let k : ℤ := roundAway ((s - f.start) * f.rate)
  if k ≤ 0 then f
  else if endt f < s then { f with start := endt f + 1 / f.rate, data := [] }
  else { f with start := f.start + (k : ℚ) / f.rate, data := f.data.drop k.toNat }

/-- obspy `Trace._rtrim(endtime=e, pad=False, nearest_sample=True)`: cut
off everything after the sample nearest `e`.  With
`delta = round_away((e - start) * rate) - npts + 1 >= 0` the trace is
returned unchanged; with `e` before the start the data are emptied;
otherwise the first `round_away((e - start) * rate) + 1` samples are
kept. -/
def rtrim (f : Tr) (e : ℚ) : Tr :=
  let k : ℤ := roundAway ((e - f.start) * f.rate)
  if (f.data.length : ℤ) - 1 ≤ k then f
  else if e < f.start then { f with start := e, data := [] }
  else { f with data := f.data.take (k.toNat + 1) }

/-- obspy `Trace.trim(starttime=s, endtime=e, pad=False)`: `_ltrim` then
`_rtrim`, with the default `nearest_sample=True`. -/
def trim (f : Tr) (s e : ℚ) : Tr := rtrim (ltrim f s) e

/-- `split_trace_at_midnights` from `20_twominutemseed2suds.py` (lines
74-93), with explicit fuel standing in for the unbounded `while True:`
loop: `none` means the loop has not finished within `fuel` iterations
(the real loop would still be running).  Each iteration cuts the
current fragment at the next UTC midnight after its start day via two
`trim` calls and continues with the remainder. -/
def split_trace_at_midnights : ℕ → Tr → Option (List Tr)
  | 0, _ => none
  | fuel + 1, cur =>
    let st := cur.start
    let et := endt cur
    let dayEnd := dayStart st + 86400
    if et ≤ dayEnd then some [cur]
    else
      let left := trim cur st dayEnd
      let remainder := trim cur dayEnd et
      match split_trace_at_midnights fuel remainder with
      | none => none
      | some parts => some (left :: parts)

/-- `round_sampling_rates` from `20_twominutemseed2suds.py` (lines
95-102), on a single rate: snap to the nearest integer only when within
`1e-6` of it. -/
def round_sampling_rate (sr : ℚ) : ℚ :=
  if |sr - (pyRound sr : ℚ)| < 1/1000000 then (pyRound sr : ℚ) else sr

/-- `round_sampling_rates` applied to every trace of a stream. -/
def round_sampling_rates (st : List Tr) : List Tr :=
  st.map fun t => { t with rate := round_sampling_rate t.rate }

/-- The retry rounding in `append_and_merge` of `02_mseed2sds.py` (line
60): `tr.stats.sampling_rate = float(round(tr.stats.sampling_rate))`,
an unconditional snap with no tolerance. -/
def round_rates_02 (st : List Tr) : List Tr :=
  st.map fun t => { t with rate := (pyRound t.rate : ℚ) }

/-! ## obspy merge semantics

`Stream.merge(method, fill_value)` first checks (`_merge_checks`) that
traces sharing an id also share a sampling rate, raising an `Exception`
otherwise, then combines each id group with `Trace.__add__`.  The
buckets and day streams built by these scripts hold exactly one seed id,
so the model below is the single-id case. -/

/-- Whether two traces carry the same seed id. -/
def sameId (a b : Tr) : Bool :=
  a.net == b.net && a.sta == b.sta && a.loc == b.loc && a.cha == b.cha

/-- `np.all(np.equal(xs, ys))` on (possibly masked) sample slices of
equal length: masked positions are ignored by `MaskedArray.all`, hence
count as equal. -/
def optEqAll (xs ys : List (Option ℤ)) : Bool :=
  (xs.zip ys).all fun p =>
    match p.1, p.2 with
    | some x, some y => x == y
    | _, _ => true

/-- obspy `create_empty_data_chunk(n, dtype, fill_value)`: `n` masked
samples when `fill_value` is `None`, else `n` copies of `fill_value`. -/
def chunk (n : ℕ) (fill : Option ℤ) : List (Option ℤ) := List.replicate n fill

/-- obspy `Trace.__add__(trace, method, fill_value,
interpolation_samples=0)` for an unmasked pair, as invoked by
`Stream.merge`.  Errors on differing seed ids or sampling rates
(`TypeError` in obspy).  The earlier-starting trace is `lt`.  With
`delta = round_away((rt.start - lt.endtime) * rate) - 1`:
a positive `delta` is a gap (filled with `chunk`), `delta = 0` is exact
continuation, and a negative `delta` is an overlap of `o = -delta`
samples, resolved per the obspy method table: identical overlap data
are merged seamlessly; otherwise method 0 replaces the overlap by a
`chunk` and method 1 (with `interpolation_samples = 0`) discards the
earlier trace's overlapping samples and keeps the later trace's.  A
trace contained inside the other keeps the longer trace's data (method
1) or masks the differing span (method 0). -/
def tadd (method : ℕ) (fill : Option ℤ) (a b : Tr) : Except Unit Tr :=
  if ¬ (sameId a b) then .error () else
  if a.rate ≠ b.rate then .error () else
  let lt := if a.start ≤ b.start then a else b
  let rt := if a.start ≤ b.start then b else a
  let n := lt.data.length
  let delta : ℤ := roundAway ((rt.start - endt lt) * lt.rate) - 1
  let newData : List (Option ℤ) :=
    if delta < 0 ∧ endt lt - endt rt < 0 then
      -- overlap
      let o := (-delta).toNat
      if optEqAll (lt.data.drop (n - o)) (rt.data.take o) then
        lt.data.take (n - o) ++ rt.data
      else if method = 0 then
        lt.data.take (n - o) ++ chunk o fill ++ rt.data.drop o
      else
        lt.data.take (n - o) ++ rt.data
    else if delta < 0 then
      -- rt contained within lt
      let o := (-delta).toNat
      let t1 := n - o
      if optEqAll ((lt.data.drop t1).take rt.data.length) rt.data then lt.data
      else if method = 0 then
        lt.data.take t1 ++ chunk rt.data.length fill ++ lt.data.drop (t1 + rt.data.length)
      else lt.data
    else if delta = 0 then lt.data ++ rt.data
    else lt.data ++ chunk delta.toNat fill ++ rt.data
  .ok { lt with data := newData }

/-- The single-seed-id action of `Stream.merge(method, fill_value)`:
sort the traces by `starttime` (stably) and fold them together with
`Trace.__add__`.  An empty stream never reaches a merge call in these
scripts. -/
def mergeSameId (method : ℕ) (fill : Option ℤ) (st : List Tr) : Except Unit Tr :=
  match st.insertionSort (fun x y => x.start ≤ y.start) with
  | [] => .error ()
  | t :: rest => rest.foldlM (tadd method fill) t

/-- `append_and_merge(dayst, st)` from `02_mseed2sds.py` (lines 53-61),
for single-seed-id streams: append copies of `st` to `dayst`, then
`dayst.merge(method=0, fill_value=0)`; if that raises, round every
sampling rate with `float(round(sr))` and merge again (this second
merge is not guarded). -/
def append_and_merge (dayst st : List Tr) : Except Unit Tr :=
  let all := dayst ++ st
  match mergeSameId 0 (some 0) all with
  | .ok t => .ok t
  | .error _ => mergeSameId 0 (some 0) (round_rates_02 all)

/-- Whether `Stream.merge` raises for a single-seed-id bucket: by
`_merge_checks`, exactly when two traces of the id carry different
sampling rates. -/
def mergeRaises : List Tr → Bool
  | [] => false
  | t :: rest => !(rest.all fun u => u.rate == t.rate)

/-- The per-bucket write loop of `process` in
`20_twominutemseed2suds.py` (lines 159-191).  Buckets are processed in
sorted key order (keys abstracted to labels here; only the control flow
is at stake).  Each bucket is merged with `method=1` inside a
`try/except`; on failure the rates are rounded with
`round_sampling_rates` and the merge is retried *outside* any handler,
so a second failure propagates and ends the loop.  Returns the labels
of the buckets written before any such abort, and whether the run
aborted. -/
def processBuckets : List (ℕ × List Tr) → List ℕ × Bool
  | [] => ([], false)
  | (k, frs) :: rest =>
    if !(mergeRaises frs) then
      let r := processBuckets rest
      (k :: r.1, r.2)
    else if !(mergeRaises (round_sampling_rates frs)) then
      let r := processBuckets rest
      (k :: r.1, r.2)
    else ([], true)

/-! ## Concrete instances used by the claim theorems -/

/-- The network code 'NR' assigned by both scripts. -/
def strNR : Str := ['N', 'R']

def staPIR : Str := ['P', 'I', 'R']
def staPIR1 : Str := ['P', 'I', 'R', '1']
def staPIR2 : Str := ['P', 'I', 'R', '2']
def staPIRZ : Str := ['P', 'I', 'R', 'Z']
def staPIRN : Str := ['P', 'I', 'R', 'N']
def staPIRE : Str := ['P', 'I', 'R', 'E']

/-- The PIR sibling batch of the spec scenario, with arbitrary incoming
channel codes. -/
def pirBatch (c1 c2 cz cn ce : Str) : List STr :=
  [⟨[], staPIR1, [], c1⟩, ⟨[], staPIR2, [], c2⟩,
   ⟨[], staPIRZ, [], cz⟩, ⟨[], staPIRN, [], cn⟩, ⟨[], staPIRE, [], ce⟩]

def irigT : STr := ⟨[], IRIG, [], ['t','i']⟩
def irizT : STr := ⟨[], ['I','R','I','Z'], [], ['x','x']⟩

/-- A fragment at 1 Hz starting 0.4 s before UTC midnight
(1970-01-01T23:59:59.6Z, POSIX 86399.6 = 431998/5) with 3 samples, so it
ends 1.6 s into the next day. -/
def fC9 : Tr := ⟨strNR, staPIR, [], EHZ, 431998/5, 1, [some 1, some 2, some 3]⟩

/-- A fragment at 1 Hz starting exactly 1 s before UTC midnight
(POSIX 86399) with 3 samples, so its middle sample falls exactly on
midnight. -/
def fC1 : Tr := ⟨strNR, staPIR, [], EHZ, 86399, 1, [some 5, some 6, some 7]⟩

/-- The first piece the splitter produces from `fC1`. -/
def lC1 : Tr := ⟨strNR, staPIR, [], EHZ, 86399, 1, [some 5, some 6]⟩

/-- The second piece the splitter produces from `fC1`. -/
def rC1 : Tr := ⟨strNR, staPIR, [], EHZ, 86400, 1, [some 6, some 7]⟩

def cA2 : Tr := ⟨strNR, staPIR, [], EHZ, 0, 1, [some 1, some 2]⟩
def cB2 : Tr := ⟨strNR, staPIR, [], EHZ, 4, 1, [some 3, some 4]⟩

def cA4 : Tr := ⟨strNR, staPIR, [], EHZ, 0, 1,
  [some 100, some 101, some 102, some 103, some 104,
   some 105, some 106, some 107, some 108, some 109]⟩
def cB4 : Tr := ⟨strNR, staPIR, [], EHZ, 5, 1,
  [some 200, some 201, some 202, some 203, some 204,
   some 205, some 206, some 207, some 208, some 209]⟩

/-- Whether a bucket survives the merge step of the write loop: its
first merge succeeds, or the retry after `round_sampling_rates`
succeeds. -/
def bucketMergeable (frs : List Tr) : Bool :=
  !(mergeRaises frs) || !(mergeRaises (round_sampling_rates frs))

def bB50 : Tr := ⟨strNR, staPIR, [], EHZ, 0, 50, [some 1]⟩
def bB100 : Tr := ⟨strNR, staPIR, [], EHZ, 10, 100, [some 2]⟩
def bC100 : Tr := ⟨strNR, staPIR, [], EHZ, 0, 100, [some 3]⟩

/-! ## Arithmetic helper lemmas -/

lemma roundAway_intCast (z : ℤ) : roundAway (z : ℚ) = z := by
  unfold roundAway
  split_ifs with h
  · rw [Int.floor_int_add]
    norm_num
  · rw [show ((z : ℚ) - 1/2) = -(1/2) + (z : ℚ) by ring, Int.ceil_add_int]
    norm_num

lemma roundAway_natCast (k : ℕ) : roundAway (k : ℚ) = k := by
  have h := roundAway_intCast (k : ℤ)
  push_cast at h
  exact h

lemma roundAway_zero : roundAway 0 = 0 := by norm_num [roundAway]

/-- One loop iteration of the splitter on a fragment already contained
in its start day. -/
lemma split_base (fuel : ℕ) (cur : Tr) (h : endt cur ≤ dayStart cur.start + 86400) :
    split_trace_at_midnights (fuel + 1) cur = some [cur] := by
  simp only [split_trace_at_midnights]
  rw [if_pos h]

/-- One loop iteration of the splitter on a fragment that extends past
the midnight after its start day. -/
lemma split_succ (fuel : ℕ) (cur : Tr) (h : ¬ (endt cur ≤ dayStart cur.start + 86400)) :
    split_trace_at_midnights (fuel + 1) cur =
      match split_trace_at_midnights fuel (trim cur (dayStart cur.start + 86400) (endt cur)) with
      | none => none
      | some parts => some (trim cur cur.start (dayStart cur.start + 86400) :: parts) := by
  simp only [split_trace_at_midnights]
  rw [if_neg h]

/-! ## Merge engine evaluation lemmas -/

/-- `Trace.__add__` on two gap-separated traces (any method): the gap of
`g` missing samples becomes a `chunk g fill` between the two data runs. -/
lemma tadd_gap (method : ℕ) (fill : Option ℤ) (a b : Tr) (g : ℕ)
    (hid : sameId a b = true) (hrate : a.rate = b.rate) (hord : a.start ≤ b.start)
    (hgap : roundAway ((b.start - endt a) * a.rate) - 1 = (g : ℤ)) (hg : 0 < g) :
    tadd method fill a b = .ok { a with data := a.data ++ chunk g fill ++ b.data } := by
  simp only [tadd]
  rw [if_neg (not_not_intro hid), if_neg (not_not_intro hrate), if_pos hord, if_pos hord,
    hgap]
  rw [if_neg (fun h => absurd h.1 (by omega)), if_neg (by omega : ¬ ((g:ℤ) < 0)),
    if_neg (by omega : ¬ ((g:ℤ) = 0))]
  have : ((g : ℤ)).toNat = g := by omega
  rw [this]

section Overlap

variable (a b : Tr) (k : ℕ)

/-- Shared arithmetic for the overlap lemmas: the sample offset of `b`
inside `a`, `delta`, and the resulting index bounds. -/
private lemma overlap_delta
    (hr : 0 < a.rate) (halign : (b.start - a.start) * a.rate = (k : ℚ)) :
    roundAway ((b.start - endt a) * a.rate) - 1 = (k : ℤ) - (a.data.length : ℤ) := by
  have hr0 : a.rate ≠ 0 := ne_of_gt hr
  have hba : (b.start - endt a) * a.rate = (k : ℚ) - (a.data.length : ℚ) + 1 := by
    rw [endt]
    have hexp : (b.start - (a.start + ((a.data.length : ℚ) - 1) / a.rate)) * a.rate
        = (b.start - a.start) * a.rate - ((a.data.length : ℚ) - 1) / a.rate * a.rate := by
      ring
    rw [hexp, halign, div_mul_cancel₀ _ hr0]
    ring
  rw [hba,
    show ((k:ℚ) - (a.data.length : ℚ) + 1) =
      (((k:ℤ) - (a.data.length : ℤ) + 1 : ℤ) : ℚ) by push_cast; ring,
    roundAway_intCast]
  ring

private lemma overlap_ord
    (hr : 0 < a.rate) (halign : (b.start - a.start) * a.rate = (k : ℚ)) :
    a.start ≤ b.start := by
  have hr0 : a.rate ≠ 0 := ne_of_gt hr
  have h1 : b.start - a.start = (k : ℚ) / a.rate := by
    rw [eq_div_iff hr0]
    exact halign
  have h2 : (0:ℚ) ≤ (k : ℚ) / a.rate := div_nonneg (Nat.cast_nonneg k) (le_of_lt hr)
  linarith [h1 ▸ h2]

/-- `Trace.__add__` with `method=1` (and `interpolation_samples=0`) on
two overlapping traces with differing overlap data: the earlier trace's
overlapping tail is discarded and the later trace's samples are kept
(obspy: "Discard data of the previous trace"). -/
lemma tadd_overlap_m1 (fill : Option ℤ)
    (hid : sameId a b = true) (hrate : a.rate = b.rate) (hr : 0 < a.rate)
    (halign : (b.start - a.start) * a.rate = (k : ℚ))
    (hkn : k < a.data.length)
    (hlong : endt a < endt b)
    (hdiff : optEqAll (a.data.drop k) (b.data.take (a.data.length - k)) = false) :
    tadd 1 fill a b = .ok { a with data := a.data.take k ++ b.data } := by
  have hord := overlap_ord a b k hr halign
  have hdelta := overlap_delta a b k hr halign
  simp only [tadd]
  rw [if_neg (not_not_intro hid), if_neg (not_not_intro hrate), if_pos hord, if_pos hord,
    hdelta]
  rw [if_pos ⟨by omega, sub_neg.mpr hlong⟩]
  rw [show (-(((k:ℤ) - (a.data.length : ℤ)))).toNat = a.data.length - k from by omega]
  rw [show a.data.length - (a.data.length - k) = k from by omega]
  rw [if_neg (by rw [hdiff]; exact Bool.false_ne_true)]
  rw [if_neg (by omega : ¬ (1 = 0))]

/-- `Trace.__add__` with `method=0` on two overlapping traces with
differing overlap data: the overlap is replaced by a `chunk` (masked, or
`fill_value` copies), taken from neither trace. -/
lemma tadd_overlap_m0 (fill : Option ℤ)
    (hid : sameId a b = true) (hrate : a.rate = b.rate) (hr : 0 < a.rate)
    (halign : (b.start - a.start) * a.rate = (k : ℚ))
    (hkn : k < a.data.length)
    (hlong : endt a < endt b)
    (hdiff : optEqAll (a.data.drop k) (b.data.take (a.data.length - k)) = false) :
    tadd 0 fill a b = .ok { a with data :=
      (a.data.take k ++ chunk (a.data.length - k) fill ++ b.data.drop (a.data.length - k)) } := by
  have hord := overlap_ord a b k hr halign
  have hdelta := overlap_delta a b k hr halign
  simp only [tadd]
  rw [if_neg (not_not_intro hid), if_neg (not_not_intro hrate), if_pos hord, if_pos hord,
    hdelta]
  rw [if_pos ⟨by omega, sub_neg.mpr hlong⟩]
  rw [show (-(((k:ℤ) - (a.data.length : ℤ)))).toNat = a.data.length - k from by omega]
  rw [show a.data.length - (a.data.length - k) = k from by omega]
  rw [if_neg (by rw [hdiff]; exact Bool.false_ne_true)]
  simp

end Overlap

/-- `Stream.merge` of a two-trace single-id stream in `starttime` order
is a single `Trace.__add__`. -/
lemma mergeSameId_pair (method : ℕ) (fill : Option ℤ) (a b : Tr)
    (hord : a.start ≤ b.start) :
    mergeSameId method fill [a, b] = tadd method fill a b := by
  simp only [mergeSameId, List.insertionSort, List.orderedInsert, if_pos hord]
  cases h : tadd method fill a b <;> simp [List.foldlM, h]

/-! ## Claim C3 -/

/-- C3 (amended): on the sibling set {PIR1,PIR2,PIRZ,PIRN,PIRE} the
snapshot normalizer of `20_twominutemseed2suds.py` behaves exactly as
claimed — PIRZ/PIRN/PIRE become (PIR,EHZ)/(PIR,EHN)/(PIR,EHE) and
PIR1/PIR2 keep their station and receive the default EHZ only if their
own channel is not already a well-formed orientation code — while the
normalizer of `02_mseed2sds.py` forces channel EHZ on PIR1 and PIR2
unconditionally, even when their channel is already well-formed. -/
theorem C3_pir_scenario (c1 c2 cz cn ce : Str) :
    fix_seedid_20 strNR (pirBatch c1 c2 cz cn ce) =
      [⟨strNR, staPIR1, [], if malformedCha c1 then EHZ else c1⟩,
       ⟨strNR, staPIR2, [], if malformedCha c2 then EHZ else c2⟩,
       ⟨strNR, staPIR, [], ['E','H','Z']⟩,
       ⟨strNR, staPIR, [], ['E','H','N']⟩,
       ⟨strNR, staPIR, [], ['E','H','E']⟩] ∧
    fix_seedid_02 strNR (pirBatch c1 c2 cz cn ce) =
      [⟨strNR, staPIR1, [], EHZ⟩,
       ⟨strNR, staPIR2, [], EHZ⟩,
       ⟨strNR, staPIR, [], ['E','H','Z']⟩,
       ⟨strNR, staPIR, [], ['E','H','N']⟩,
       ⟨strNR, staPIR, [], ['E','H','E']⟩] := by
  constructor
  · by_cases h1 : malformedCha c1 = true <;> by_cases h2 : malformedCha c2 = true <;>
      simp [fix_seedid_20, fix_seedid_one_20, pirBatch, strNR, staPIR, staPIR1, staPIR2,
        staPIRZ, staPIRN, staPIRE, IRIG, EHZ, strEH, strEL, endsZNE_slice, lastCh,
        lead, pystrip, h1, h2]
  · simp +decide [fix_seedid_02, fix_seedid_02_loop, fix_seedid_one_02, pirBatch, strNR,
      staPIR, staPIR1, staPIR2, staPIRZ, staPIRN, staPIRE, IRIG, EHZ, strEH, strEL,
      endsZNE_index, lastCh, lead]

/-- C3 counterexample to the claim as stated: in `02_mseed2sds.py`,
fragment PIR1 arrives with the already well-formed channel EHE and is
nevertheless reassigned the default channel EHZ, so "receive the default
channel EHZ only if their own channel code is not already a well-formed
3-character orientation code" is false of the code. -/
theorem C3_counterexample :
    malformedCha ['E','H','E'] = false ∧
    fix_seedid_02 strNR (pirBatch ['E','H','E'] EHZ EHZ EHZ EHZ) =
      [⟨strNR, staPIR1, [], EHZ⟩,
       ⟨strNR, staPIR2, [], EHZ⟩,
       ⟨strNR, staPIR, [], ['E','H','Z']⟩,
       ⟨strNR, staPIR, [], ['E','H','N']⟩,
       ⟨strNR, staPIR, [], ['E','H','E']⟩] ∧
    EHZ ≠ ['E','H','E'] := by
  decide

/-! ## Claim C8 -/

/-- C8 (amended): the snapshot-based normalizer of
`20_twominutemseed2suds.py` is order-independent: permuting the batch
leaves every fragment's normalized identity unchanged (the sibling
counts depend only on the multiset of station codes), and the output
stream is the corresponding permutation.  (The live-select normalizer
of `02_mseed2sds.py` is order-dependent, see the counterexample.) -/
theorem C8_order_independent_20 (network : Str) (st st' : List STr) (h : st.Perm st') :
    (∀ tr : STr, fix_seedid_one_20 (st.map STr.sta) network tr
        = fix_seedid_one_20 (st'.map STr.sta) network tr) ∧
    (fix_seedid_20 network st).Perm (fix_seedid_20 network st') := by
  have hc : ∀ p : Str → Bool, (st.map STr.sta).countP p = (st'.map STr.sta).countP p :=
    fun p => (h.map STr.sta).countP_eq p
  have hone : ∀ tr : STr, fix_seedid_one_20 (st.map STr.sta) network tr
      = fix_seedid_one_20 (st'.map STr.sta) network tr := by
    intro tr
    simp only [fix_seedid_one_20, hc]
  refine ⟨hone, ?_⟩
  have hfun : fix_seedid_one_20 (st.map STr.sta) network
      = fix_seedid_one_20 (st'.map STr.sta) network := funext hone
  unfold fix_seedid_20
  rw [← hfun]
  exact h.filterMap _

/-- C8 witness: the order-independence theorem applied to a concrete
two-trace batch and its transposition. -/
theorem C8_order_independent_20_witness :
    (([⟨[], ['A','B','C'], [], ['x']⟩, ⟨[], ['A','B','D'], [], ['y']⟩] : List STr)).Perm
      [⟨[], ['A','B','D'], [], ['y']⟩, ⟨[], ['A','B','C'], [], ['x']⟩] ∧
    (fix_seedid_20 strNR [⟨[], ['A','B','C'], [], ['x']⟩, ⟨[], ['A','B','D'], [], ['y']⟩]).Perm
      (fix_seedid_20 strNR [⟨[], ['A','B','D'], [], ['y']⟩, ⟨[], ['A','B','C'], [], ['x']⟩]) :=
  ⟨List.Perm.swap _ _ [],
    (C8_order_independent_20 strNR _ _ (List.Perm.swap _ _ [])).2⟩

/-- C8 counterexample to the claim as stated: `fix_seedid` in
`02_mseed2sds.py` is order-dependent.  The batch {IRIG, IRIZ} (same
sibling multiset) yields different identities for the IRIZ fragment
depending on supply order.  With IRIG first, the sentinel is removed
from the live stream before IRIZ is processed, so the live select
counts only one IRI-rooted station, `multi` is false, and IRIZ keeps
station IRIZ (default channel EHZ).  With IRIZ first, the still-present
IRIG sentinel makes the live count 2, `multi` is true, and IRIZ is
renamed to station IRI with channel EHZ. -/
theorem C8_counterexample :
    ([irigT, irizT] : List STr).Perm [irizT, irigT] ∧
    fix_seedid_02 strNR [irigT, irizT] = [⟨strNR, ['I','R','I','Z'], [], EHZ⟩] ∧
    fix_seedid_02 strNR [irizT, irigT] = [⟨strNR, ['I','R','I'], [], EHZ⟩] ∧
    (['I','R','I','Z'] : Str) ≠ ['I','R','I'] :=
  ⟨List.Perm.swap _ _ [], by decide, by decide, by decide⟩

/-! ## Claim C10 -/

/-- The station written by the 02 per-trace body is either the raw
station or its 3-character truncation. -/
lemma fix1_02_sta (m : Bool) (network : Str) (tr : STr) :
    (fix_seedid_one_02 m network tr).sta = tr.sta ∨
    (fix_seedid_one_02 m network tr).sta = tr.sta.take 3 := by
  simp only [fix_seedid_one_02]
  split_ifs <;> simp [List.take_take]

/-- C9: `split_trace_at_midnights` does *not* terminate on every
fragment with positive rate and finite sample count.  For `fC9` the
nearest sample to midnight is the one 0.4 s before it, so
`trim(starttime=day_end)` rounds the cut to delta = 0 samples and the
"remainder" equals the input fragment: the `while True:` loop never
advances, and the splitter returns nothing at any fuel. -/
theorem C9_split_nonterminating :
    ∀ fuel : ℕ, split_trace_at_midnights fuel fC9 = none := by
  have hds : dayStart fC9.start + 86400 = 86400 := by
    rw [dayStart]
    norm_num [fC9]
  have het : endt fC9 = 432008/5 := by norm_num [endt, fC9]
  have hno : ¬ (endt fC9 ≤ dayStart fC9.start + 86400) := by
    rw [het, hds]; norm_num
  have hltr : ltrim fC9 86400 = fC9 := by
    have h0 : roundAway ((86400 - fC9.start) * fC9.rate) = 0 := by
      have hx : ((86400 : ℚ) - fC9.start) * fC9.rate = 2/5 := by norm_num [fC9]
      rw [hx]
      norm_num [roundAway]
    simp [ltrim, h0]
  have hrtr : rtrim fC9 (endt fC9) = fC9 := by
    have h2 : roundAway ((endt fC9 - fC9.start) * fC9.rate) = 2 := by
      have hx : (endt fC9 - fC9.start) * fC9.rate = 2 := by
        rw [het]; norm_num [fC9]
      rw [hx, show (2:ℚ) = ((2:ℤ):ℚ) by norm_num, roundAway_intCast]
    have hlen : ((fC9.data.length : ℤ) - 1 ≤ 2) := by norm_num [fC9]
    simp only [rtrim, h2]
    rw [if_pos hlen]
  have hrem : trim fC9 (dayStart fC9.start + 86400) (endt fC9) = fC9 := by
    rw [trim, hds, hltr, hrtr]
  intro fuel
  induction fuel with
  | zero => rfl
  | succ n ih =>
    simp only [split_trace_at_midnights]
    rw [if_neg hno, hrem, ih]

/-! ## Claim C1 -/

lemma fC1_split : split_trace_at_midnights 2 fC1 = some [lC1, rC1] := by
  have hds : dayStart fC1.start + 86400 = 86400 := by
    rw [dayStart]
    norm_num [fC1]
  have het : endt fC1 = 86401 := by norm_num [endt, fC1]
  have hno : ¬ (endt fC1 ≤ dayStart fC1.start + 86400) := by
    rw [het, hds]; norm_num
  have hl0 : ltrim fC1 fC1.start = fC1 := by
    simp [ltrim, roundAway_zero]
  have hleft : rtrim fC1 86400 = lC1 := by
    have hk : roundAway ((86400 - fC1.start) * fC1.rate) = 1 := by
      have hx : ((86400 : ℚ) - fC1.start) * fC1.rate = 1 := by norm_num [fC1]
      rw [hx, show (1:ℚ) = ((1:ℤ):ℚ) by norm_num, roundAway_intCast]
    simp only [rtrim, hk]
    rw [if_neg (by norm_num [fC1]), if_neg (by norm_num [fC1])]
    norm_num [fC1, lC1]
  have hrd : ltrim fC1 86400 = rC1 := by
    have hk : roundAway ((86400 - fC1.start) * fC1.rate) = 1 := by
      have hx : ((86400 : ℚ) - fC1.start) * fC1.rate = 1 := by norm_num [fC1]
      rw [hx, show (1:ℚ) = ((1:ℤ):ℚ) by norm_num, roundAway_intCast]
    simp only [ltrim, hk]
    rw [if_neg (by norm_num), if_neg (by norm_num [endt, fC1])]
    norm_num [fC1, rC1]
  have hrr : rtrim rC1 (endt fC1) = rC1 := by
    have hk : roundAway ((endt fC1 - rC1.start) * rC1.rate) = 1 := by
      have hx : (endt fC1 - rC1.start) * rC1.rate = 1 := by
        rw [het]; norm_num [rC1]
      rw [hx, show (1:ℚ) = ((1:ℤ):ℚ) by norm_num, roundAway_intCast]
    have hlen : ((rC1.data.length : ℤ) - 1 ≤ 1) := by norm_num [rC1]
    simp only [rtrim, hk]
    rw [if_pos hlen]
  have hds2 : dayStart rC1.start + 86400 = 172800 := by
    rw [dayStart]
    norm_num [rC1]
  have hok : endt rC1 ≤ dayStart rC1.start + 86400 := by
    rw [hds2]
    norm_num [endt, rC1]
  have hL : trim fC1 fC1.start 86400 = lC1 := by rw [trim, hl0, hleft]
  have hRm : trim fC1 86400 (endt fC1) = rC1 := by rw [trim, hrd, hrr]
  simp only [split_trace_at_midnights]
  rw [if_neg hno, hds, hL, hRm, if_pos hok]

/-- C1 (amended): a fragment whose end time is at or before the
midnight after its start day is returned unsplit; and a fragment with
positive rate that crosses exactly one UTC midnight, with the midnight
lying exactly on its sample grid (`k` samples after the start), is split
into two pieces that cover the original range contiguously — the first
keeps samples 0..k and ends exactly at midnight (crossing none), the
second starts exactly at midnight with samples k..n-1 and ends at the
original end — but the two pieces are *not* disjoint: they share the
boundary sample, carrying one sample more than the original in total. -/
theorem C1_split_semantics (f : Tr) (k : ℕ)
    (hr : 0 < f.rate)
    (hcross : dayStart f.start + 86400 < endt f)
    (hone : endt f ≤ dayStart f.start + 86400 + 86400)
    (halign : (dayStart f.start + 86400 - f.start) * f.rate = (k : ℚ)) :
    (∀ g : Tr, endt g ≤ dayStart g.start + 86400 →
        split_trace_at_midnights 1 g = some [g]) ∧
    split_trace_at_midnights 2 f =
      some [{ f with data := f.data.take (k + 1) },
            { f with start := dayStart f.start + 86400, data := f.data.drop k }] ∧
    ({ f with data := f.data.take (k + 1) } : Tr).start = f.start ∧
    endt { f with data := f.data.take (k + 1) } = dayStart f.start + 86400 ∧
    endt ({ f with start := dayStart f.start + 86400, data := f.data.drop k } : Tr) = endt f ∧
    (f.data.take (k + 1)).dropLast ++ f.data.drop k = f.data ∧
    (f.data.take (k + 1)).length + (f.data.drop k).length = f.data.length + 1 := by
  have hr0 : f.rate ≠ 0 := ne_of_gt hr
  have hsde : f.start < dayStart f.start + 86400 := by
    have h1 : f.start / 86400 < (⌊f.start / 86400⌋ : ℚ) + 1 := Int.lt_floor_add_one _
    have h2 : f.start < ((⌊f.start / 86400⌋ : ℚ) + 1) * 86400 :=
      (div_lt_iff₀ (by norm_num : (0:ℚ) < 86400)).mp h1
    rw [dayStart]
    linarith
  have hkpos : 0 < k := by
    have hp : (0:ℚ) < (dayStart f.start + 86400 - f.start) * f.rate :=
      mul_pos (by linarith) hr
    rw [halign] at hp
    exact_mod_cast hp
  have hmid : f.start + (k : ℚ) / f.rate = dayStart f.start + 86400 := by
    have h2 : (k:ℚ) / f.rate = dayStart f.start + 86400 - f.start := by
      rw [div_eq_iff hr0]
      exact halign.symm
    linarith
  have hkn : k + 1 < f.data.length := by
    have hc : dayStart f.start + 86400 < f.start + ((f.data.length : ℚ) - 1) / f.rate := by
      rw [endt] at hcross
      exact hcross
    have h3 : (k:ℚ) / f.rate < ((f.data.length : ℚ) - 1) / f.rate := by linarith
    have h4 : (k:ℚ) < (f.data.length : ℚ) - 1 := (div_lt_div_iff_of_pos_right hr).mp h3
    have h5 : (k:ℚ) + 1 < (f.data.length : ℚ) := by linarith
    exact_mod_cast h5
  have hkval : roundAway ((dayStart f.start + 86400 - f.start) * f.rate) = (k:ℤ) := by
    rw [halign, roundAway_natCast]
  have hL : trim f f.start (dayStart f.start + 86400) = { f with data := f.data.take (k + 1) } := by
    have hl0 : ltrim f f.start = f := by
      simp [ltrim, roundAway_zero]
    rw [trim, hl0]
    simp only [rtrim, hkval]
    rw [if_neg (by omega : ¬ ((f.data.length : ℤ) - 1 ≤ ((k:ℕ) : ℤ))),
      if_neg (not_lt.mpr (le_of_lt hsde)),
      show (((k:ℕ) : ℤ)).toNat = k from by omega]
  have hR : trim f (dayStart f.start + 86400) (endt f) =
      { f with start := dayStart f.start + 86400, data := f.data.drop k } := by
    have hlr : ltrim f (dayStart f.start + 86400) =
        { f with start := dayStart f.start + 86400, data := f.data.drop k } := by
      simp only [ltrim, hkval]
      rw [if_neg (by omega : ¬ (((k:ℕ) : ℤ) ≤ 0)),
        if_neg (not_lt.mpr (le_of_lt hcross)),
        show ((((k:ℕ) : ℤ)) : ℚ) = (k : ℚ) from by push_cast; ring,
        show (((k:ℕ) : ℤ)).toNat = k from by omega, hmid]
    rw [trim, hlr]
    have hkval2 : roundAway ((endt f - (dayStart f.start + 86400)) * f.rate) =
        (f.data.length : ℤ) - 1 - (k:ℤ) := by
      have hx : (endt f - (dayStart f.start + 86400)) * f.rate
          = ((f.data.length : ℚ) - 1 - (k : ℚ)) := by
        rw [endt, ← hmid]
        field_simp
      rw [hx, show ((f.data.length : ℚ) - 1 - (k : ℚ)) =
        (((f.data.length : ℤ) - 1 - ((k:ℕ):ℤ) : ℤ) : ℚ) from by push_cast; ring,
        roundAway_intCast]
    simp only [rtrim, hkval2]
    rw [if_pos (by simp [List.length_drop]; omega)]
  have hdayde : dayStart (dayStart f.start + 86400) = dayStart f.start + 86400 := by
    rw [dayStart, dayStart]
    have hx : (86400 * ((⌊f.start / 86400⌋ : ℤ) : ℚ) + 86400) / 86400 =
        ((⌊f.start / 86400⌋ + 1 : ℤ) : ℚ) := by
      push_cast
      field_simp
      ring
    rw [hx, Int.floor_intCast]
    push_cast
    ring
  have hkle : k ≤ f.data.length := by omega
  have hendR : endt ({ f with start := dayStart f.start + 86400, data := f.data.drop k } : Tr) = endt f := by
    simp only [endt, List.length_drop]
    rw [← hmid, Nat.cast_sub hkle]
    field_simp
    ring
  have hendL : endt { f with data := f.data.take (k + 1) } = dayStart f.start + 86400 := by
    simp only [endt, List.length_take]
    rw [min_eq_left (by omega : k + 1 ≤ f.data.length), ← hmid]
    have hsimp : ((k + 1 : ℕ) : ℚ) - 1 = (k : ℚ) := by push_cast; ring
    rw [hsimp]
  have hok2 : endt ({ f with start := dayStart f.start + 86400, data := f.data.drop k } : Tr) ≤
      dayStart ({ f with start := dayStart f.start + 86400, data := f.data.drop k } : Tr).start + 86400 := by
    rw [hendR]
    show endt f ≤ dayStart (dayStart f.start + 86400) + 86400
    rw [hdayde]
    exact hone
  have hsplit : split_trace_at_midnights 2 f =
      some [{ f with data := f.data.take (k + 1) },
            { f with start := dayStart f.start + 86400, data := f.data.drop k }] := by
    have h1 : split_trace_at_midnights 2 f =
        match split_trace_at_midnights 1 (trim f (dayStart f.start + 86400) (endt f)) with
        | none => none
        | some parts => some (trim f f.start (dayStart f.start + 86400) :: parts) := by
      rw [show (2:ℕ) = 1 + 1 from rfl]
      exact split_succ 1 f (not_le.mpr hcross)
    rw [h1, hR]
    have h2 : split_trace_at_midnights 1
        ({ f with start := dayStart f.start + 86400, data := f.data.drop k } : Tr) =
        some [{ f with start := dayStart f.start + 86400, data := f.data.drop k }] := by
      rw [show (1:ℕ) = 0 + 1 from rfl]
      exact split_base 0 _ hok2
    rw [h2, hL]
  have hunion : (f.data.take (k + 1)).dropLast ++ f.data.drop k = f.data := by
    rw [List.dropLast_eq_take, List.length_take,
      min_eq_left (by omega : k + 1 ≤ f.data.length),
      show k + 1 - 1 = k from rfl, List.take_take,
      min_eq_left (by omega : k ≤ k + 1)]
    exact List.take_append_drop k f.data
  refine ⟨fun g hg => ?_, hsplit, rfl, hendL, hendR, hunion, ?_⟩
  · simp only [split_trace_at_midnights]
    rw [if_pos hg]
  · simp [List.length_take, List.length_drop]
    omega

lemma c1w_rate : 0 < fC1.rate := by norm_num [fC1]

lemma c1w_cross : dayStart fC1.start + 86400 < endt fC1 := by
  rw [dayStart]
  norm_num [endt, fC1]

lemma c1w_one : endt fC1 ≤ dayStart fC1.start + 86400 + 86400 := by
  rw [dayStart]
  norm_num [endt, fC1]

lemma c1w_align : (dayStart fC1.start + 86400 - fC1.start) * fC1.rate = ((1:ℕ) : ℚ) := by
  rw [dayStart]
  norm_num [fC1]

/-- C1 witness: the split theorem at the concrete midnight-straddling
fragment `fC1` with the boundary sample one step after the start. -/
theorem C1_split_semantics_witness :
    0 < fC1.rate ∧ dayStart fC1.start + 86400 < endt fC1 ∧
    endt fC1 ≤ dayStart fC1.start + 86400 + 86400 ∧
    (dayStart fC1.start + 86400 - fC1.start) * fC1.rate = ((1:ℕ) : ℚ) ∧
    split_trace_at_midnights 2 fC1 =
      some [{ fC1 with data := fC1.data.take 2 },
            { fC1 with start := dayStart fC1.start + 86400, data := fC1.data.drop 1 }] :=
  ⟨c1w_rate, c1w_cross, c1w_one, c1w_align,
    (C1_split_semantics fC1 1 c1w_rate c1w_cross c1w_one c1w_align).2.1⟩

/-- C1 counterexample to the claim as stated: the sample lying exactly
on midnight is included in *both* pieces (obspy's nearest-sample trims
keep it on each side of the cut), so the two sub-fragments' time ranges
both contain the midnight instant and are not pairwise disjoint, and
the pieces together carry one sample more than the original. -/
theorem C1_counterexample :
    split_trace_at_midnights 2 fC1 = some [lC1, rC1] ∧
    endt lC1 = rC1.start ∧
    ¬ List.Pairwise (fun x y : Tr => endt x < y.start ∨ endt y < x.start) [lC1, rC1] ∧
    lC1.data.length + rC1.data.length = fC1.data.length + 1 := by
  refine ⟨fC1_split, by norm_num [endt, lC1, rC1], ?_, by decide⟩
  intro hpw
  rcases List.pairwise_cons.mp hpw with ⟨hfst, -⟩
  rcases hfst rC1 (by simp) with h | h
  · rw [show endt lC1 = 86400 by norm_num [endt, lC1]] at h
    norm_num [rC1] at h
  · rw [show endt rC1 = 86401 by norm_num [endt, rC1]] at h
    norm_num [lC1] at h

/-! ## Claim C2 -/

lemma c2_ord : cA2.start ≤ cB2.start := by norm_num [cA2, cB2]

lemma c2_gap : roundAway ((cB2.start - endt cA2) * cA2.rate) - 1 = ((2 : ℕ) : ℤ) := by
  have h3 : (cB2.start - endt cA2) * cA2.rate = 3 := by norm_num [endt, cA2, cB2]
  rw [h3, show (3 : ℚ) = ((3 : ℤ) : ℚ) by norm_num, roundAway_intCast]
  norm_num

/-- C2 (amended): a positive gap of `g` missing samples between two
same-rate fragments is preserved by `Stream.merge(method=1)` (the suds
pipeline) as `g` masked no-data samples — not zero-filled, not
interpolated — whereas `02_mseed2sds.py` calls
`merge(method=0, fill_value=0)`, which fills the same gap with `g`
zero samples. -/
theorem C2_gap_semantics (a b : Tr) (g : ℕ)
    (hid : sameId a b = true) (hrate : a.rate = b.rate) (hord : a.start ≤ b.start)
    (hgap : roundAway ((b.start - endt a) * a.rate) - 1 = (g : ℤ)) (hg : 0 < g) :
    tadd 1 none a b = .ok { a with data := a.data ++ List.replicate g none ++ b.data } ∧
    tadd 0 (some 0) a b = .ok { a with data := a.data ++ List.replicate g (some 0) ++ b.data } :=
  ⟨tadd_gap 1 none a b g hid hrate hord hgap hg,
   tadd_gap 0 (some 0) a b g hid hrate hord hgap hg⟩

/-- C2 witness: the gap theorem at a concrete two-fragment bucket with a
two-sample gap. -/
theorem C2_gap_semantics_witness :
    sameId cA2 cB2 = true ∧ cA2.rate = cB2.rate ∧ cA2.start ≤ cB2.start ∧
    roundAway ((cB2.start - endt cA2) * cA2.rate) - 1 = ((2 : ℕ) : ℤ) ∧ 0 < 2 ∧
    tadd 1 none cA2 cB2 =
      .ok { cA2 with data := cA2.data ++ List.replicate 2 none ++ cB2.data } :=
  ⟨by decide, rfl, c2_ord, c2_gap, by decide,
    (C2_gap_semantics cA2 cB2 2 (by decide) rfl c2_ord c2_gap (by decide)).1⟩

/-- C2 counterexample to the claim as stated: in `02_mseed2sds.py`,
`append_and_merge` merges with `fill_value=0`, so the two missing
samples of the gap come out as literal zero samples — the output carries
no no-data marker at all — contradicting "the gap samples are not
zero-filled". -/
theorem C2_counterexample :
    append_and_merge [cA2] [cB2] =
      .ok { cA2 with data := [some 1, some 2, some 0, some 0, some 3, some 4] } ∧
    (∀ x ∈ ({ cA2 with data := [some 1, some 2, some 0, some 0, some 3, some 4] } : Tr).data,
      x ≠ none) := by
  refine ⟨?_, by decide⟩
  have hm : mergeSameId 0 (some 0) ([cA2] ++ [cB2]) = tadd 0 (some 0) cA2 cB2 := by
    simpa using mergeSameId_pair 0 (some 0) cA2 cB2 c2_ord
  have ht := tadd_gap 0 (some 0) cA2 cB2 2 (by decide) rfl c2_ord c2_gap (by decide)
  simp only [append_and_merge, hm, ht]
  rfl

/-! ## Claim C4 -/

lemma c4_ord : cA4.start ≤ cB4.start := by norm_num [cA4, cB4]

lemma c4_rate_pos : 0 < cA4.rate := by norm_num [cA4]

lemma c4_align : (cB4.start - cA4.start) * cA4.rate = ((5 : ℕ) : ℚ) := by
  norm_num [cA4, cB4]

lemma c4_long : endt cA4 < endt cB4 := by norm_num [endt, cA4, cB4]

/-- C4 (amended): for same-rate fragments A and B with B starting `k`
samples into A and extending beyond it, `Stream.merge(method=1)` (the
suds pipeline) resolves the overlap *last*-writer-wins: the merged
series is A's first `k` samples followed by all of B, so every sample of
the overlapped region comes from B and A's overlapping tail is
discarded (unless the overlapping data are identical).  The merged
output still spans from A's start to B's end.  Under
`merge(method=0, fill_value=0)` (`02_mseed2sds.py`) the differing
overlap is replaced by zeros, taken from neither fragment. -/
theorem C4_overlap_semantics (a b : Tr) (k : ℕ)
    (hid : sameId a b = true) (hrate : a.rate = b.rate) (hr : 0 < a.rate)
    (halign : (b.start - a.start) * a.rate = (k : ℚ))
    (hkn : k < a.data.length)
    (hlong : endt a < endt b)
    (hdiff : optEqAll (a.data.drop k) (b.data.take (a.data.length - k)) = false) :
    tadd 1 none a b = .ok { a with data := a.data.take k ++ b.data } ∧
    ({ a with data := a.data.take k ++ b.data } : Tr).start = a.start ∧
    endt { a with data := a.data.take k ++ b.data } = endt b ∧
    tadd 0 (some 0) a b = .ok { a with data :=
      (a.data.take k ++ chunk (a.data.length - k) (some 0)
        ++ b.data.drop (a.data.length - k)) } := by
  refine ⟨tadd_overlap_m1 a b k none hid hrate hr halign hkn hlong hdiff, rfl, ?_,
    tadd_overlap_m0 a b k (some 0) hid hrate hr halign hkn hlong hdiff⟩
  have hr0 : a.rate ≠ 0 := ne_of_gt hr
  have hlen : (a.data.take k ++ b.data).length = k + b.data.length := by
    simp [List.length_take]
    omega
  have hb : b.start = a.start + (k : ℚ) / a.rate := by
    have h1 : b.start - a.start = (k : ℚ) / a.rate := by
      rw [eq_div_iff hr0]; exact halign
    linarith
  simp only [endt, hlen]
  rw [← hrate, hb]
  push_cast
  field_simp
  ring

/-- C4 witness: the overlap theorem at the spec's concrete scenario —
A covering [t0, t0+10s) and B covering [t0+5s, t0+15s) at 1 Hz. -/
theorem C4_overlap_semantics_witness :
    sameId cA4 cB4 = true ∧ cA4.rate = cB4.rate ∧ 0 < cA4.rate ∧
    (cB4.start - cA4.start) * cA4.rate = ((5 : ℕ) : ℚ) ∧ 5 < cA4.data.length ∧
    endt cA4 < endt cB4 ∧
    optEqAll (cA4.data.drop 5) (cB4.data.take (cA4.data.length - 5)) = false ∧
    tadd 1 none cA4 cB4 = .ok { cA4 with data := cA4.data.take 5 ++ cB4.data } :=
  ⟨by decide, rfl, c4_rate_pos, c4_align, by decide, c4_long, by decide,
    (C4_overlap_semantics cA4 cB4 5 (by decide) rfl c4_rate_pos c4_align (by decide)
      c4_long (by decide)).1⟩

/-- C4 counterexample to the claim as stated: in the merged bucket the
sample at the start of the overlapped region [t0+5s, t0+10s) is B's
sample 200, not A's sample 105 — the samples of the overlap are *not*
taken from the first-arrived fragment A. -/
theorem C4_counterexample :
    mergeSameId 1 none [cA4, cB4] = .ok { cA4 with data := cA4.data.take 5 ++ cB4.data } ∧
    ({ cA4 with data := cA4.data.take 5 ++ cB4.data } : Tr).data.getD 5 none = some 200 ∧
    cA4.data.getD 5 none = some 105 ∧
    (some 200 : Option ℤ) ≠ some 105 := by
  refine ⟨?_, by decide, by decide, by decide⟩
  rw [mergeSameId_pair 1 none cA4 cB4 c4_ord]
  exact tadd_overlap_m1 cA4 cB4 5 none (by decide) rfl c4_rate_pos c4_align (by decide)
    c4_long (by decide)

/-! ## Claim C5 -/

/-- C5 (amended): the write loop of `process` is *not* fully per-bucket
fault-isolated.  A bucket whose merge raises even after rate rounding
aborts the run: exactly the longest prefix of merge-surviving buckets is
written (the failing bucket and every later one are lost), and the run
aborts iff some bucket fails both merge attempts.  Only a first-attempt
failure cured by rounding is recovered. -/
theorem C5_merge_failure_aborts_run (bs : List (ℕ × List Tr)) :
    processBuckets bs =
      ((bs.takeWhile fun kb => bucketMergeable kb.2).map Prod.fst,
        !(bs.all fun kb => bucketMergeable kb.2)) := by
  induction bs with
  | nil => simp [processBuckets]
  | cons kb rest ih =>
    obtain ⟨k, frs⟩ := kb
    by_cases h1 : mergeRaises frs = true
    · by_cases h2 : mergeRaises (round_sampling_rates frs) = true
      · simp [processBuckets, h1, h2, bucketMergeable]
      · simp [processBuckets, h1, h2, bucketMergeable, ih]
    · simp [processBuckets, h1, bucketMergeable, ih]

/-- C5 counterexample to the claim as stated: bucket 0 holds fragments
at 50 Hz and 100 Hz (same id), which still differ after rounding, so its
retry merge raises outside any handler; bucket 1 is perfectly mergeable
but is never written — the failure of one bucket aborts the whole
run. -/
theorem C5_counterexample :
    processBuckets [(0, [bB50, bB100]), (1, [bC100])] = ([], true) ∧
    mergeRaises [bC100] = false := by
  have hp50 : pyRound (50 : ℚ) = 50 := by norm_num [pyRound]
  have hp100 : pyRound (100 : ℚ) = 100 := by norm_num [pyRound]
  have h50 : round_sampling_rate 50 = 50 := by
    rw [round_sampling_rate, hp50]
    norm_num
  have h100 : round_sampling_rate 100 = 100 := by
    rw [round_sampling_rate, hp100]
    norm_num
  have hm1 : mergeRaises [bB50, bB100] = true := by
    simp only [mergeRaises, List.all_cons, List.all_nil, Bool.and_true, beq_iff_eq,
      bB50, bB100]
    norm_num
  have hm2 : mergeRaises (round_sampling_rates [bB50, bB100]) = true := by
    simp only [round_sampling_rates, List.map_cons, List.map_nil, bB50, bB100, h50, h100]
    simp only [mergeRaises, List.all_cons, List.all_nil, Bool.and_true, beq_iff_eq]
    norm_num
  refine ⟨?_, by simp [mergeRaises]⟩
  simp [processBuckets, hm1, hm2]

/-! ## Claim C6 -/

/-- C6: the sample-rate reconciler `round_sampling_rates` snaps a rate
iff it is within `1e-6` of the nearest integer — but contrary to the
claim (and to the function's own docstring, which gives 99.9997 as its
motivating example), 99.9997 Hz is 3e-4 away from 100 Hz, far outside
the 1e-6 tolerance, so it is left unchanged and does not reconcile to
100.0.  A rate genuinely within tolerance (99.9999995 Hz) does snap. -/
theorem C6_tolerance_never_reaches_99_9997 :
    round_sampling_rate (999997/10000) = 999997/10000 ∧
    (999997/10000 : ℚ) ≠ 100 ∧
    round_sampling_rate (199999999/2000000) = 100 := by
  have h1 : pyRound (999997/10000) = 100 := by
    norm_num [pyRound]
  have h2 : pyRound (199999999/2000000) = 100 := by
    norm_num [pyRound]
  refine ⟨?_, by norm_num, ?_⟩
  · rw [round_sampling_rate, h1]
    rw [if_neg (by
      rw [not_lt, show |(999997/10000 : ℚ) - ((100 : ℤ) : ℚ)| = 3/10000 from by
        rw [abs_of_nonpos (by norm_num)]; norm_num]
      norm_num)]
  · rw [round_sampling_rate, h2]
    rw [if_pos (by
      rw [show |(199999999/2000000 : ℚ) - ((100 : ℤ) : ℚ)| = 1/2000000 from by
        rw [abs_of_nonpos (by norm_num)]; norm_num]
      norm_num)]
    norm_num

/-! ## Claim C7 -/

/-- A 3-character truncation is never the 4-character IRIG code. -/
lemma take3_ne_IRIG (s : Str) : s.take 3 ≠ IRIG := by
  intro h
  have hlen := congrArg List.length h
  simp only [List.length_take, IRIG, List.length_cons, List.length_nil] at hlen
  omega

/-- A trace surviving the 20 normalizer came from a non-IRIG trace and
keeps either its raw station or its 3-character truncation. -/
lemma fix1_20_sta (stations : List Str) (network : Str) (tr u : STr)
    (h : fix_seedid_one_20 stations network tr = some u) :
    tr.sta ≠ IRIG ∧ (u.sta = tr.sta ∨ u.sta = tr.sta.take 3) := by
  by_cases h1 : tr.sta = IRIG
  · rw [fix_seedid_one_20, if_pos h1] at h
    exact absurd h (by simp)
  · refine ⟨h1, ?_⟩
    rw [fix_seedid_one_20, if_neg h1] at h
    have hu : u = _ := (Option.some.inj h).symm
    subst hu
    split_ifs <;> simp [List.take_take]

/-- Every trace in the output of the 02 loop has a non-IRIG station,
provided the already-processed prefix does. -/
lemma fix02_loop_no_irig (network : Str) :
    ∀ (rest prev : List STr), (∀ u ∈ prev, u.sta ≠ IRIG) →
      ∀ u ∈ fix_seedid_02_loop network prev rest, u.sta ≠ IRIG := by
  intro rest
  induction rest with
  | nil =>
    intro prev hprev u hu
    exact hprev u (by simpa [fix_seedid_02_loop] using hu)
  | cons tr rest ih =>
    intro prev hprev u hu
    rw [fix_seedid_02_loop.eq_def] at hu
    dsimp only at hu
    by_cases h1 : tr.sta = IRIG
    · rw [if_pos h1] at hu
      exact ih prev hprev u hu
    · rw [if_neg h1] at hu
      refine ih _ ?_ u hu
      intro v hv
      rcases List.mem_append.mp hv with hv | hv
      · exact hprev v hv
      · have hveq : v = fix_seedid_one_02
            (decide (1 < ((prev ++ tr :: rest).map STr.sta).countP (leadCI (tr.sta.take 3))))
            network tr := by simpa using hv
        rcases hveq ▸ fix1_02_sta
            (decide (1 < ((prev ++ tr :: rest).map STr.sta).countP (leadCI (tr.sta.take 3))))
            network tr with hs | hs
        · rw [hs]; exact h1
        · rw [hs]; exact take3_ne_IRIG tr.sta

/-- C7: both normalizers drop every IRIG fragment — after normalization
no trace with the timing-sentinel station remains in the output stream
(so none can reach a bucket).  obspy's `Stream.__iter__` iterates a
copy of the trace list, so the in-loop `st.remove(tr)` of
`02_mseed2sds.py` is safe and removes every IRIG trace; the trailing
conjunct shows a two-IRIG stream normalizing to empty under both
implementations.  The dropping is a filter (both functions are total),
not an error. -/
theorem C7_irig_dropped (network : Str) (st : List STr) :
    ((fix_seedid_20 network st).all fun tr => !(tr.sta == IRIG)) = true ∧
    ((fix_seedid_02 network st).all fun tr => !(tr.sta == IRIG)) = true ∧
    fix_seedid_02 strNR [⟨[], IRIG, [], ['v','1']⟩, ⟨[], IRIG, [], ['v','2']⟩] = [] ∧
    fix_seedid_20 strNR [⟨[], IRIG, [], ['v','1']⟩, ⟨[], IRIG, [], ['v','2']⟩] = [] := by
  refine ⟨?_, ?_, by decide, by decide⟩
  · rw [List.all_eq_true]
    intro u hu
    simp only [Bool.not_eq_true', beq_eq_false_iff_ne, ne_eq]
    simp only [fix_seedid_20] at hu
    obtain ⟨tr, -, hf⟩ := List.mem_filterMap.mp hu
    rcases fix1_20_sta _ network tr u hf with ⟨h1, hs | hs⟩
    · rw [hs]; exact h1
    · rw [hs]; exact take3_ne_IRIG tr.sta
  · rw [List.all_eq_true]
    intro u hu
    simp only [Bool.not_eq_true', beq_eq_false_iff_ne, ne_eq]
    exact fix02_loop_no_irig network st [] (by simp) u hu
